import Mathlib

/-!
Verification development for the ODIN client-side generation core.

Text is modelled as `List Char`.  The Stream Event Framer is the
boundary-extraction loop of `handleGenerate` together with `parseSseEvent`
(`src/web/app/workspace/components/generation-settings-section.tsx`).
-/

namespace Odin

/-- JavaScript whitespace characters relevant to `String.prototype.trim`
(space, tab, line feed, carriage return, vertical tab, form feed). -/
def isJsWs (c : Char) : Bool :=
  c = ' ' || c = '\t' || c = '\n' || c = '\r' || c = '\x0b' || c = '\x0c'

/-- Embedding of JavaScript `s.trim()`: drop whitespace from both ends. -/
def trimChars (l : List Char) : List Char :=
  ((l.dropWhile isJsWs).reverse.dropWhile isJsWs).reverse

/-- Embedding of JavaScript `s.split('\n')`. -/
def splitOnNl : List Char → List (List Char)
  | [] => [[]]
  | c :: rest =>
    if c = '\n' then [] :: splitOnNl rest
    else
      match splitOnNl rest with
      | [] => [[c]]
      | l :: ls => (c :: l) :: ls

/-- One SSE frame: event name plus raw payload (type `SseEvent` in
`generation-settings-section.tsx`). -/
structure SseEvent where
  event : List Char
  data : List Char
deriving DecidableEq

/-- One iteration of the `lines.forEach` body of `parseSseEvent`.  The
accumulator is `(eventName, dataLines)`.  `line.replace('event:', '')` removes
the first occurrence of the marker; since the branch only runs when the line
starts with the marker, this is `line.drop 6` (resp. `drop 5` for `data:`). -/
def sseLineStep (acc : List Char × List (List Char)) (line : List Char) :
    List Char × List (List Char) :=
  if ("event:".toList).isPrefixOf line then
    (trimChars (line.drop 6), acc.2)
  else if ("data:".toList).isPrefixOf line then
    (acc.1, acc.2 ++ [trimChars (line.drop 5)])
  else acc

/-- Embedding of JavaScript `lines.join('\n')`. -/
def joinNl (ls : List (List Char)) : List Char :=
  (ls.intersperse ['\n']).flatten

/-- Embedding of `parseSseEvent` from `generation-settings-section.tsx`:
split on newlines, fold over the lines with default event name `message`,
join the data lines with newlines. -/
def parseSseEvent (chunk : List Char) : SseEvent :=
  let r := (splitOnNl chunk).foldl sseLineStep ("message".toList, [])
  ⟨r.1, joinNl r.2⟩

/-- Embedding of `buffer.indexOf('\n\n')` together with the two `slice`s:
find the first occurrence of a blank line (two consecutive `'\n'`) and return
the text before it and the text after it. -/
def splitFirstBoundary : List Char → Option (List Char × List Char)
  | [] => none
  | [_] => none
  | c1 :: c2 :: rest =>
    if c1 = '\n' && c2 = '\n' then some ([], rest)
    else
      match splitFirstBoundary (c2 :: rest) with
      | none => none
      | some (pre, post) => some (c1 :: pre, post)

theorem splitFirstBoundary_length :
    ∀ (l : List Char) (pre post : List Char),
      splitFirstBoundary l = some (pre, post) →
      l.length = pre.length + post.length + 2 := by
  intro l
  induction l with
  | nil => intro pre post h; simp [splitFirstBoundary] at h
  | cons c1 t ih =>
    intro pre post h
    cases t with
    | nil => simp [splitFirstBoundary] at h
    | cons c2 rest =>
      rw [splitFirstBoundary] at h
      by_cases hc : c1 = '\n' && c2 = '\n'
      · rw [if_pos hc] at h
        simp only [Option.some.injEq, Prod.mk.injEq] at h
        obtain ⟨h1, h2⟩ := h
        subst h1; subst h2
        simp
      · rw [if_neg hc] at h
        cases h' : splitFirstBoundary (c2 :: rest) with
        | none => rw [h'] at h; cases h
        | some pr =>
          obtain ⟨pre', post'⟩ := pr
          rw [h'] at h
          simp only [Option.some.injEq, Prod.mk.injEq] at h
          obtain ⟨h1, h2⟩ := h
          subst h1; subst h2
          have hlen := ih pre' post' h'
          simp only [List.length_cons] at hlen ⊢
          omega

theorem splitFirstBoundary_append (t : List Char) :
    ∀ (l : List Char) (pre post : List Char),
      splitFirstBoundary l = some (pre, post) →
      splitFirstBoundary (l ++ t) = some (pre, post ++ t) := by
  intro l
  induction l with
  | nil => intro pre post h; simp [splitFirstBoundary] at h
  | cons c1 s ih =>
    intro pre post h
    cases s with
    | nil => simp [splitFirstBoundary] at h
    | cons c2 rest =>
      rw [splitFirstBoundary] at h
      by_cases hc : c1 = '\n' && c2 = '\n'
      · rw [if_pos hc] at h
        simp only [Option.some.injEq, Prod.mk.injEq] at h
        obtain ⟨h1, h2⟩ := h
        subst h1; subst h2
        show splitFirstBoundary (c1 :: c2 :: (rest ++ t)) = _
        rw [splitFirstBoundary, if_pos hc]
      · rw [if_neg hc] at h
        cases h' : splitFirstBoundary (c2 :: rest) with
        | none => rw [h'] at h; cases h
        | some pr =>
          obtain ⟨pre', post'⟩ := pr
          rw [h'] at h
          simp only [Option.some.injEq, Prod.mk.injEq] at h
          obtain ⟨h1, h2⟩ := h
          subst h1; subst h2
          have h2 := ih pre' post' h'
          show splitFirstBoundary (c1 :: c2 :: (rest ++ t)) = _
          rw [splitFirstBoundary, if_neg hc]
          have : c2 :: (rest ++ t) = (c2 :: rest) ++ t := rfl
          rw [this, h2]

/-- The body of one extracted block in the read loop of `handleGenerate`:
`const rawEvent = buffer.slice(0, boundary).trim(); if (!rawEvent) continue;
const parsed = parseSseEvent(rawEvent);`.  An all-whitespace block is skipped,
otherwise the trimmed block is parsed into one frame. -/
def emitBlock (block : List Char) : List SseEvent :=
  let r := trimChars block
  if r = [] then [] else [parseSseEvent r]

/-- The inner `while (boundary !== -1)` loop of `handleGenerate`,
written with explicit recursion fuel: repeatedly extract complete blocks
from the front of the buffer, returning the emitted frames and the trailing
partial buffer.  Each extraction removes at least two characters, so
`buf.length` fuel always suffices (`processBufferAux_congr`). -/
def processBufferAux : Nat → List Char → List SseEvent × List Char
  | 0, buf => ([], buf)
  | Nat.succ n, buf =>
    match splitFirstBoundary buf with
    | none => ([], buf)
    | some (pre, post) =>
      let r := processBufferAux n post
      (emitBlock pre ++ r.1, r.2)

/-- Drain the accumulation buffer: extract every complete blank-line-delimited
block from the front, keep the trailing partial block. -/
def processBuffer (buf : List Char) : List SseEvent × List Char :=
  processBufferAux buf.length buf

theorem processBufferAux_nil (n : Nat) : processBufferAux n [] = ([], []) := by
  cases n with
  | zero => rfl
  | succ k => rfl

theorem processBufferAux_none (n : Nat) (buf : List Char)
    (h : splitFirstBoundary buf = none) : processBufferAux n buf = ([], buf) := by
  cases n with
  | zero => rfl
  | succ k => rw [processBufferAux, h]

theorem processBufferAux_congr :
    ∀ (k : Nat) (buf : List Char) (n m : Nat),
      buf.length ≤ k → buf.length ≤ n → buf.length ≤ m →
      processBufferAux n buf = processBufferAux m buf := by
  intro k
  induction k with
  | zero =>
    intro buf n m hk _ _
    have : buf = [] := List.length_eq_zero.mp (Nat.le_zero.mp hk)
    subst this
    rw [processBufferAux_nil, processBufferAux_nil]
  | succ k ih =>
    intro buf n m hk hn hm
    cases hsb : splitFirstBoundary buf with
    | none => rw [processBufferAux_none n buf hsb, processBufferAux_none m buf hsb]
    | some pr =>
      obtain ⟨pre, post⟩ := pr
      have hlen := splitFirstBoundary_length buf pre post hsb
      cases n with
      | zero => omega
      | succ n' =>
        cases m with
        | zero => omega
        | succ m' =>
          rw [processBufferAux, processBufferAux, hsb]
          have hrec : processBufferAux n' post = processBufferAux m' post :=
            ih post n' m' (by omega) (by omega) (by omega)
          dsimp only
          rw [hrec]

theorem processBuffer_none (buf : List Char)
    (h : splitFirstBoundary buf = none) : processBuffer buf = ([], buf) :=
  processBufferAux_none buf.length buf h

theorem processBuffer_some (buf pre post : List Char)
    (h : splitFirstBoundary buf = some (pre, post)) :
    processBuffer buf
      = (emitBlock pre ++ (processBuffer post).1, (processBuffer post).2) := by
  have hlen := splitFirstBoundary_length buf pre post h
  unfold processBuffer
  cases hb : buf.length with
  | zero => omega
  | succ n =>
    rw [processBufferAux, h]
    have heq : processBufferAux n post = processBufferAux post.length post :=
      processBufferAux_congr n post n post.length (by omega) (by omega) (by omega)
    dsimp only
    rw [heq]

theorem processBuffer_leftover :
    ∀ (k : Nat) (buf : List Char), buf.length ≤ k →
      splitFirstBoundary (processBuffer buf).2 = none := by
  intro k
  induction k with
  | zero =>
    intro buf hk
    have : buf = [] := List.length_eq_zero.mp (Nat.le_zero.mp hk)
    subst this
    rfl
  | succ k ih =>
    intro buf hk
    cases hsb : splitFirstBoundary buf with
    | none => rw [processBuffer_none buf hsb]; exact hsb
    | some pr =>
      obtain ⟨pre, post⟩ := pr
      have hlen := splitFirstBoundary_length buf pre post hsb
      rw [processBuffer_some buf pre post hsb]
      exact ih post (by omega)

theorem processBuffer_append :
    ∀ (k : Nat) (s t : List Char), s.length ≤ k →
      processBuffer (s ++ t)
        = ((processBuffer s).1 ++ (processBuffer ((processBuffer s).2 ++ t)).1,
           (processBuffer ((processBuffer s).2 ++ t)).2) := by
  intro k
  induction k with
  | zero =>
    intro s t hk
    have : s = [] := List.length_eq_zero.mp (Nat.le_zero.mp hk)
    subst this
    simp [processBuffer_none [] rfl]
  | succ k ih =>
    intro s t hk
    cases hsb : splitFirstBoundary s with
    | none =>
      rw [processBuffer_none s hsb]
      simp
    | some pr =>
      obtain ⟨pre, post⟩ := pr
      have hlen := splitFirstBoundary_length s pre post hsb
      have hsb2 := splitFirstBoundary_append t s pre post hsb
      rw [processBuffer_some s pre post hsb,
        processBuffer_some (s ++ t) pre (post ++ t) hsb2,
        ih post t (by omega)]
      simp [List.append_assoc]

/-- The outer `while (true)` read loop of `handleGenerate`, restricted to its
framing effect: feed each arriving chunk into the accumulation buffer, drain
all complete blocks, and carry the leftover into the next read.  The list of
all frames produced during the session is returned; the final partial buffer
is discarded when the stream ends, exactly as in the code. -/
def runFramer (buf : List Char) : List (List Char) → List SseEvent
  | [] => []
  | c :: cs =>
    let st := processBuffer (buf ++ c)
    st.1 ++ runFramer st.2 cs

theorem runFramer_flatten :
    ∀ (cs : List (List Char)) (buf : List Char),
      splitFirstBoundary buf = none →
      runFramer buf cs = (processBuffer (buf ++ cs.flatten)).1 := by
  intro cs
  induction cs with
  | nil =>
    intro buf hb
    rw [runFramer]
    rw [List.flatten_nil, List.append_nil, processBuffer_none buf hb]
  | cons c cs ih =>
    intro buf hb
    rw [runFramer]
    have hleft : splitFirstBoundary (processBuffer (buf ++ c)).2 = none :=
      processBuffer_leftover (buf ++ c).length (buf ++ c) (Nat.le_refl _)
    rw [ih (processBuffer (buf ++ c)).2 hleft]
    rw [List.flatten_cons, ← List.append_assoc]
    rw [processBuffer_append ((buf ++ c).length) (buf ++ c) cs.flatten (Nat.le_refl _)]

theorem not_data_of_event {l : List Char}
    (h : ("event:".toList).isPrefixOf l = true) :
    ("data:".toList).isPrefixOf l = false := by
  cases l with
  | nil => exact absurd h (by decide)
  | cons c rest =>
    have h1 : ('e' == c) = true := by
      rw [show "event:".toList = 'e' :: "vent:".toList from rfl] at h
      simp only [List.isPrefixOf, Bool.and_eq_true] at h
      exact h.1
    have hc : c = 'e' := (eq_of_beq h1).symm
    subst hc
    rw [show "data:".toList = 'd' :: "ata:".toList from rfl]
    simp only [List.isPrefixOf]
    rw [show ('d' == 'e') = false from rfl]
    simp

/-- Modelled from the spec (§4.1), for comparison with `parseSseEvent`:
"lines beginning with an event-name marker set the event name (default
`message` if absent)" — each marker line in turn sets the name (so the last
one wins), the content being what follows the marker, trimmed. -/
def specEventName (lines : List (List Char)) : List Char :=
  (lines.filter (fun l => ("event:".toList).isPrefixOf l)).foldl
    (fun _ l => trimChars (l.drop 6)) ("message".toList)

/-- Modelled from the spec (§4.1), for comparison with `parseSseEvent`:
"lines beginning with a data marker are concatenated (newline-joined, in
order) into the payload", each line's content being what follows the marker,
trimmed. -/
def specPayload (lines : List (List Char)) : List Char :=
  joinNl ((lines.filter (fun l => ("data:".toList).isPrefixOf l)).map
    (fun l => trimChars (l.drop 5)))

theorem sseFold_spec :
    ∀ (lines : List (List Char)) (e0 : List Char) (ds0 : List (List Char)),
      lines.foldl sseLineStep (e0, ds0)
        = ((lines.filter (fun l => ("event:".toList).isPrefixOf l)).foldl
             (fun _ l => trimChars (l.drop 6)) e0,
           ds0 ++ (lines.filter (fun l => ("data:".toList).isPrefixOf l)).map
             (fun l => trimChars (l.drop 5))) := by
  intro lines
  induction lines with
  | nil => intro e0 ds0; simp
  | cons line rest ih =>
    intro e0 ds0
    rw [List.foldl_cons]
    by_cases he : ("event:".toList).isPrefixOf line = true
    · have hd : ("data:".toList).isPrefixOf line = false := not_data_of_event he
      have hdn : ¬ (("data:".toList).isPrefixOf line = true) := by rw [hd]; simp
      rw [show sseLineStep (e0, ds0) line = (trimChars (line.drop 6), ds0) from by
        unfold sseLineStep; rw [if_pos he]]
      rw [ih]
      rw [List.filter_cons_of_pos he, List.filter_cons_of_neg hdn]
      rw [List.foldl_cons]
    · by_cases hd : ("data:".toList).isPrefixOf line = true
      · rw [show sseLineStep (e0, ds0) line
            = (e0, ds0 ++ [trimChars (line.drop 5)]) from by
          unfold sseLineStep; rw [if_neg he, if_pos hd]]
        rw [ih]
        rw [List.filter_cons_of_neg he, List.filter_cons_of_pos hd]
        rw [List.map_cons, List.append_assoc]
        rfl
      · rw [show sseLineStep (e0, ds0) line = (e0, ds0) from by
          unfold sseLineStep; rw [if_neg he, if_neg hd]]
        rw [ih]
        rw [List.filter_cons_of_neg he, List.filter_cons_of_neg hd]

/-- C3: for every text stream and every way of splitting it into an ordered
sequence of chunks, feeding the chunks to the Framer in order produces the
same ordered list of frames as any other split of the same stream; in
particular the two chunks `"event: resu"` then `"lt\ndata: {"id":"1"}\n\n"`
yield exactly one frame with event `result` and data `{"id":"1"}`. -/
theorem framer_chunk_invariance :
    (∀ cs ds : List (List Char), cs.flatten = ds.flatten →
        runFramer [] cs = runFramer [] ds)
    ∧ runFramer [] ["event: resu".toList, ("lt\ndata: \x7b\"id\":\"1\"\x7d\n\n").toList]
        = [⟨"result".toList, ("\x7b\"id\":\"1\"\x7d").toList⟩] := by
  constructor
  · intro cs ds hf
    rw [runFramer_flatten cs [] rfl, runFramer_flatten ds [] rfl]
    rw [List.nil_append, List.nil_append, hf]
  · decide

/-- Witness for `framer_chunk_invariance`: two concrete splits of the stream
`"abc"` produce the same frames. -/
theorem framer_chunk_invariance_witness :
    runFramer [] ["ab".toList, "c".toList] = runFramer [] ["a".toList, "bc".toList] :=
  framer_chunk_invariance.1 ["ab".toList, "c".toList] ["a".toList, "bc".toList] (by decide)

/-- C4: for every complete block extracted by the Framer, the frame's event
name is set by the `event:` lines (default `message`), its payload is the
`data:` lines' contents joined with newlines in order, and a block with no
content at all yields no frame. -/
theorem parse_block_matches_spec :
    (∀ chunk : List Char,
        parseSseEvent chunk
          = ⟨specEventName (splitOnNl chunk), specPayload (splitOnNl chunk)⟩)
    ∧ (∀ block : List Char, trimChars block = [] → emitBlock block = []) := by
  constructor
  · intro chunk
    unfold parseSseEvent specEventName specPayload
    rw [sseFold_spec]
    simp
  · intro block h
    unfold emitBlock
    rw [h]
    simp

/-- Witness for `parse_block_matches_spec`: the all-whitespace block
`"  \n "` yields no frame, and a concrete block parses as described. -/
theorem parse_block_matches_spec_witness :
    emitBlock ("  \n ").toList = [] :=
  parse_block_matches_spec.2 ("  \n ").toList (by decide)

/-!
Project data model and the workspace mutators, from
`src/web/lib/workspace-storage.ts` and the `WorkspaceProjectProvider` of
`src/unnamed/part_017` (the version with `setPendingSlots` and
`renameProject`).  Timestamps (`new Date().toISOString()`) are modelled as a
`now : Nat` argument threaded into every mutator.
-/

inductive AutosaveStatus
  | ready
  | saving
deriving DecidableEq

inductive GenStatus
  | idle
  | generating
  | error
deriving DecidableEq

inductive ResultSource
  | mock
  | api
deriving DecidableEq

/-- `WorkspaceGenerationResult` from `workspace-storage.ts`. -/
structure WorkspaceGenerationResult where
  id : List Char
  imageUrl : List Char
  description : List Char
  createdAt : List Char
  source : Option ResultSource
deriving DecidableEq

/-- `WorkspaceProject` from `workspace-storage.ts`. -/
structure WorkspaceProject where
  id : List Char
  name : List Char
  createdAt : Nat
  updatedAt : Nat
  autosaveStatus : AutosaveStatus
  slideImage : Option (List Char)
  prompt : Option (List Char)
  results : List WorkspaceGenerationResult
  generationStatus : GenStatus
  generationError : Option (List Char)
  pendingSlots : Int
deriving DecidableEq

/-- Embedding of JavaScript `array.slice(-n)`: the whole list when it has at
most `n` elements, otherwise the last `n`. -/
def lastN (n : Nat) (l : List α) : List α := l.drop (l.length - n)

/-- `createDefaultWorkspaceProject` from `workspace-storage.ts`. -/
def createDefaultWorkspaceProject (now : Nat) : WorkspaceProject :=
  { id := "local-project".toList
    name := "Untitled project".toList
    createdAt := now
    updatedAt := now
    autosaveStatus := AutosaveStatus.ready
    slideImage := none
    prompt := none
    results := []
    generationStatus := GenStatus.idle
    generationError := none
    pendingSlots := 0 }

/-- `loadWorkspaceProject` from `workspace-storage.ts`: no raw cache entry (or
a parse failure) yields a fresh default; otherwise the parsed record is merged
over the defaults (a complete parsed record, as persisted by
`persistWorkspaceProject`, supplies every field, `pendingSlots ?? 0` keeping
the persisted value). -/
def loadWorkspaceProject (now : Nat) (cached : Option WorkspaceProject) :
    WorkspaceProject :=
  match cached with
  | none => createDefaultWorkspaceProject now
  | some parsed => parsed

/-- `setGenerationState` from the workspace provider (`part_017`, lines
393-407): set `generationStatus` and `generationError`, refresh `updatedAt`. -/
def setGenerationState (now : Nat) (p : WorkspaceProject) (state : GenStatus)
    (error : Option (List Char)) : WorkspaceProject :=
  { p with generationStatus := state, generationError := error, updatedAt := now }

/-- `setPendingSlots` from the workspace provider (`part_017`, lines
409-418): overwrite `pendingSlots`. -/
def setPendingSlots (p : WorkspaceProject) (count : Int) : WorkspaceProject :=
  { p with pendingSlots := count }

/-- `appendGenerationResults` from the workspace provider (`part_017`, lines
378-391): append, keep the last 12 (`slice(-12)`), clear `generationError`,
decrement `pendingSlots` by the number appended floored at 0
(`Math.max(prev.pendingSlots - results.length, 0)`). -/
def appendGenerationResults (now : Nat) (p : WorkspaceProject)
    (results : List WorkspaceGenerationResult) : WorkspaceProject :=
  { p with
    results := lastN 12 (p.results ++ results)
    generationError := none
    updatedAt := now
    pendingSlots := max (p.pendingSlots - (results.length : Int)) 0 }

/-- `Partial<WorkspaceProject>` as used by `updateProject` callers in scope. -/
structure WorkspaceProjectUpdates where
  name : Option (List Char)
  prompt : Option (Option (List Char))
  slideImage : Option (Option (List Char))
deriving DecidableEq

/-- `updateProject` from the workspace provider (`part_017`, lines 344-354):
spread the updates over the previous record and refresh `updatedAt`. -/
def updateProject (now : Nat) (p : WorkspaceProject)
    (u : WorkspaceProjectUpdates) : WorkspaceProject :=
  { p with
    name := u.name.getD p.name
    prompt := u.prompt.getD p.prompt
    slideImage := u.slideImage.getD p.slideImage
    updatedAt := now }

/-!
Generation Session Controller: `handleGenerate` from
`generation-settings-section.tsx`.  The framing layer was embedded above; the
controller is embedded over the already-decoded stream of frames (the JSON
decoding done by `JSON.parse` on each payload is modelled as the payload
arriving pre-decoded).  The transport is modelled by the list of frames the
read loop delivers and by how the stream ends: a clean close (`done: true`
from the reader) or a fault (any exception reaching the `catch` block, with
its message).
-/

/-- A decoded frame as dispatched by the read loop of `handleGenerate`. -/
inductive StreamEvent
  | result (r : WorkspaceGenerationResult)
  | errorEv (message : Option (List Char))
  | doneEv
  | otherEv (name : List Char)
deriving DecidableEq

/-- How the transport ends when no terminal frame was processed. -/
inductive TransportEnd
  | closed
  | fault (message : List Char)
deriving DecidableEq

/-- `payload.message || 'Unknown error'`: a missing or empty (falsy) message
falls back to the generic text. -/
def decodeErrorMessage (m : Option (List Char)) : List Char :=
  match m with
  | none => "Unknown error".toList
  | some s => if s = [] then "Unknown error".toList else s

/-- Outcome of one `handleGenerate` run: the final project state, the final
`formError`, and whether `reader.cancel()` was called. -/
structure SessionOutcome where
  project : WorkspaceProject
  formError : Option (List Char)
  cancelled : Bool
deriving DecidableEq

/-- The frame-dispatch part of the read loop of `handleGenerate` (lines
108-161): `result` appends and continues; `error` records the decoded
message, cancels the reader and returns; `done` resets to idle, zeroes the
slots, cancels the reader and returns; other events are ignored.  When the
frames run out, a clean close falls through to lines 154-155
(`setGenerationState('idle'); setPendingSlots(0)`), and a fault lands in the
`catch` block (status `error` with the fault's own message, `pendingSlots`
zeroed). -/
def consumeFrames (now : Nat) :
    WorkspaceProject → List StreamEvent → TransportEnd → SessionOutcome
  | p, [], TransportEnd.closed =>
    ⟨setPendingSlots (setGenerationState now p GenStatus.idle none) 0, none, false⟩
  | p, [], TransportEnd.fault msg =>
    ⟨setPendingSlots (setGenerationState now p GenStatus.error (some msg)) 0,
      some ("Unable to generate visuals: ".toList ++ msg), false⟩
  | p, StreamEvent.result r :: rest, ending =>
    consumeFrames now (appendGenerationResults now p [r]) rest ending
  | p, StreamEvent.errorEv m :: _, _ =>
    ⟨setGenerationState now p GenStatus.error (some (decodeErrorMessage m)),
      some ("Unable to generate visuals: ".toList ++ decodeErrorMessage m), true⟩
  | p, StreamEvent.doneEv :: _, _ =>
    ⟨setPendingSlots (setGenerationState now p GenStatus.idle none) 0, none, true⟩
  | p, StreamEvent.otherEv _ :: rest, ending => consumeFrames now p rest ending

/-- `handleGenerate` from `generation-settings-section.tsx`: refuse without a
slide image; enter `generating` with `pendingSlots = variantCount`; without an
auth token record an authentication error and zero the slots; otherwise
consume the stream. -/
def handleGenerate (now : Nat) (p : WorkspaceProject) (variantCount : Int)
    (hasToken : Bool) (events : List StreamEvent) (ending : TransportEnd) :
    SessionOutcome :=
  if p.slideImage = none then
    ⟨p, some "Upload a slide screenshot first.".toList, false⟩
  else
    let p1 := setPendingSlots (setGenerationState now p GenStatus.generating none)
      variantCount
    if hasToken = false then
      ⟨setPendingSlots
          (setGenerationState now p1 GenStatus.error
            (some "Authentication required.".toList)) 0,
        some "Please log in to generate visuals.".toList, false⟩
    else consumeFrames now p1 events ending

theorem lastN_of_le {n : Nat} {l : List α} (h : l.length ≤ n) : lastN n l = l := by
  unfold lastN
  rw [Nat.sub_eq_zero_of_le h, List.drop_zero]

theorem lastN_length_le (n : Nat) (l : List α) : (lastN n l).length ≤ n := by
  unfold lastN
  rw [List.length_drop]
  omega

theorem lastN_append (n : Nat) (a b : List α) :
    lastN n (lastN n a ++ b) = lastN n (a ++ b) := by
  by_cases h : a.length ≤ n
  · rw [lastN_of_le h]
  · push_neg at h
    unfold lastN
    have hA : (a.drop (a.length - n)).length = n := by
      rw [List.length_drop]
      omega
    rw [List.length_append, List.length_append, hA]
    rw [List.drop_append_eq_append_drop, List.drop_append_eq_append_drop]
    rw [List.drop_drop, hA]
    congr 2
    · omega
    · omega

theorem appendOne_results_foldl (now : Nat) :
    ∀ (rs : List WorkspaceGenerationResult) (p : WorkspaceProject),
      p.results.length ≤ 12 →
      (rs.foldl (fun q r => appendGenerationResults now q [r]) p).results
        = lastN 12 (p.results ++ rs) := by
  intro rs
  induction rs with
  | nil => intro p hp; rw [List.foldl_nil, List.append_nil, lastN_of_le hp]
  | cons r rs ih =>
    intro p hp
    rw [List.foldl_cons]
    have hq : (appendGenerationResults now p [r]).results
        = lastN 12 (p.results ++ [r]) := rfl
    have hqlen : (appendGenerationResults now p [r]).results.length ≤ 12 := by
      rw [hq]
      exact lastN_length_le 12 _
    rw [ih _ hqlen, hq, lastN_append, List.append_assoc]
    rfl

/-- A concrete project with a slide image, used for concrete evaluations. -/
def sampleProject : WorkspaceProject :=
  { id := "local-project".toList
    name := "Untitled project".toList
    createdAt := 0
    updatedAt := 0
    autosaveStatus := AutosaveStatus.ready
    slideImage := some "data:image/png;base64,AAAA".toList
    prompt := some "a bar chart".toList
    results := []
    generationStatus := GenStatus.idle
    generationError := none
    pendingSlots := 0 }

/-- A concrete generation result, used for concrete evaluations. -/
def sampleResult : WorkspaceGenerationResult :=
  { id := "gen-1".toList
    imageUrl := "data:image/png;base64,BBBB".toList
    description := "a visual".toList
    createdAt := "2026-01-01".toList
    source := some ResultSource.api }

/-- C1 (amended): when an `error` frame arrives, the controller sets
`generationStatus = error` and `generationError` to the decoded message,
cancels the transport, and processes no frame that arrives afterwards — but
it leaves `pendingSlots` unchanged (the error branch never zeroes it). -/
theorem error_frame_terminal :
    ∀ (now : Nat) (p : WorkspaceProject) (m : Option (List Char))
      (rest : List StreamEvent) (ending : TransportEnd),
      consumeFrames now p (StreamEvent.errorEv m :: rest) ending
        = ⟨setGenerationState now p GenStatus.error (some (decodeErrorMessage m)),
            some ("Unable to generate visuals: ".toList ++ decodeErrorMessage m), true⟩
      ∧ (consumeFrames now p (StreamEvent.errorEv m :: rest) ending).project.generationStatus
          = GenStatus.error
      ∧ (consumeFrames now p (StreamEvent.errorEv m :: rest) ending).project.generationError
          = some (decodeErrorMessage m)
      ∧ (consumeFrames now p (StreamEvent.errorEv m :: rest) ending).cancelled = true
      ∧ (consumeFrames now p (StreamEvent.errorEv m :: rest) ending).project.pendingSlots
          = p.pendingSlots := by
  intro now p m rest ending
  exact ⟨rfl, rfl, rfl, rfl, rfl⟩

/-- Counterexample to C1 as stated: in a session started with
`variantCount = 3`, an `error` frame with message `"timeout"` sets the status
and message and cancels the transport, but `pendingSlots` stays 3 — it is not
set to 0. -/
theorem error_frame_keeps_pendingSlots :
    (handleGenerate 0 sampleProject 3 true
        [StreamEvent.errorEv (some "timeout".toList)]
        TransportEnd.closed).project.generationStatus = GenStatus.error
    ∧ (handleGenerate 0 sampleProject 3 true
        [StreamEvent.errorEv (some "timeout".toList)]
        TransportEnd.closed).project.generationError = some "timeout".toList
    ∧ (handleGenerate 0 sampleProject 3 true
        [StreamEvent.errorEv (some "timeout".toList)]
        TransportEnd.closed).cancelled = true
    ∧ ¬ (handleGenerate 0 sampleProject 3 true
        [StreamEvent.errorEv (some "timeout".toList)]
        TransportEnd.closed).project.pendingSlots = 0 := by decide

/-- `true` exactly on the frames whose handler is terminal. -/
def isTerminalFrame : StreamEvent → Bool
  | StreamEvent.errorEv _ => true
  | StreamEvent.doneEv => true
  | _ => false

/-- C2 (amended): when the transport ends with no `error`/`done` frame
processed, a clean closure yields `generationStatus = idle` with
`pendingSlots = 0` (not an error), while a transport fault yields
`generationStatus = error` carrying the fault's own message (there is no
generic "connection lost" message) with `pendingSlots = 0`. -/
theorem transport_end_without_terminal_frame :
    ∀ (now : Nat) (p : WorkspaceProject) (events : List StreamEvent),
      events.all (fun e => !isTerminalFrame e) = true →
      ((consumeFrames now p events TransportEnd.closed).project.generationStatus
          = GenStatus.idle
        ∧ (consumeFrames now p events TransportEnd.closed).project.pendingSlots = 0
        ∧ ∀ msg : List Char,
            (consumeFrames now p events (TransportEnd.fault msg)).project.generationStatus
                = GenStatus.error
              ∧ (consumeFrames now p events (TransportEnd.fault msg)).project.generationError
                = some msg
              ∧ (consumeFrames now p events (TransportEnd.fault msg)).project.pendingSlots
                = 0) := by
  intro now p events
  induction events generalizing p with
  | nil => intro _; exact ⟨rfl, rfl, fun _ => ⟨rfl, rfl, rfl⟩⟩
  | cons e rest ih =>
    intro hall
    rw [List.all_cons, Bool.and_eq_true] at hall
    cases e with
    | result r => exact ih (appendGenerationResults now p [r]) hall.2
    | errorEv m => simp [isTerminalFrame] at hall
    | doneEv => simp [isTerminalFrame] at hall
    | otherEv n => exact ih p hall.2

/-- Witness for `transport_end_without_terminal_frame` at a concrete
session. -/
theorem transport_end_without_terminal_frame_witness :
    (consumeFrames 0 sampleProject [StreamEvent.otherEv "ping".toList]
        TransportEnd.closed).project.generationStatus = GenStatus.idle :=
  (transport_end_without_terminal_frame 0 sampleProject
    [StreamEvent.otherEv "ping".toList] (by decide)).1

/-- Counterexample to C2 as stated: a clean transport close with no
`error`/`done` frame leaves the session `idle`, not `error` — the claimed
"connection lost" error never happens. -/
theorem clean_close_yields_idle :
    (handleGenerate 0 sampleProject 3 true [] TransportEnd.closed).project.generationStatus
      = GenStatus.idle
    ∧ ¬ (handleGenerate 0 sampleProject 3 true []
        TransportEnd.closed).project.generationStatus = GenStatus.error := by decide

/-- C5: each `result` frame appends exactly one decoded result (with the
12-item eviction rule) and decrements `pendingSlots` by 1 floored at 0,
leaving the status untouched (so a generating session stays `generating`);
a subsequent `done` frame sets the status to `idle` and `pendingSlots` to 0.
A session started with `variantCount = 3` receiving three `result` frames
then `done` shows the `pendingSlots` sequence 3, 2, 1, 0, 0, ends `idle`,
and grows `results` by exactly 3. -/
theorem result_frames_then_done :
    (∀ (now : Nat) (q : WorkspaceProject) (r : WorkspaceGenerationResult),
        (appendGenerationResults now q [r]).results = lastN 12 (q.results ++ [r])
        ∧ (appendGenerationResults now q [r]).pendingSlots = max (q.pendingSlots - 1) 0
        ∧ (appendGenerationResults now q [r]).generationStatus = q.generationStatus)
    ∧ (∀ (now : Nat) (p : WorkspaceProject) (r1 r2 r3 : WorkspaceGenerationResult)
        (ending : TransportEnd) (p1 q1 q2 q3 : WorkspaceProject),
        p1 = setPendingSlots (setGenerationState now p GenStatus.generating none) 3 →
        q1 = appendGenerationResults now p1 [r1] →
        q2 = appendGenerationResults now q1 [r2] →
        q3 = appendGenerationResults now q2 [r3] →
        ¬ p.slideImage = none →
        p.results.length ≤ 9 →
        p1.pendingSlots = 3 ∧ q1.pendingSlots = 2 ∧ q2.pendingSlots = 1
          ∧ q3.pendingSlots = 0
          ∧ p1.generationStatus = GenStatus.generating
          ∧ q1.generationStatus = GenStatus.generating
          ∧ q2.generationStatus = GenStatus.generating
          ∧ q3.generationStatus = GenStatus.generating
          ∧ handleGenerate now p 3 true
              [StreamEvent.result r1, StreamEvent.result r2, StreamEvent.result r3,
                StreamEvent.doneEv] ending
            = ⟨setPendingSlots (setGenerationState now q3 GenStatus.idle none) 0,
                none, true⟩
          ∧ (handleGenerate now p 3 true
              [StreamEvent.result r1, StreamEvent.result r2, StreamEvent.result r3,
                StreamEvent.doneEv] ending).project.generationStatus = GenStatus.idle
          ∧ (handleGenerate now p 3 true
              [StreamEvent.result r1, StreamEvent.result r2, StreamEvent.result r3,
                StreamEvent.doneEv] ending).project.pendingSlots = 0
          ∧ (handleGenerate now p 3 true
              [StreamEvent.result r1, StreamEvent.result r2, StreamEvent.result r3,
                StreamEvent.doneEv] ending).project.results.length
            = p.results.length + 3) := by
  constructor
  · intro now q r
    exact ⟨rfl, rfl, rfl⟩
  · intro now p r1 r2 r3 ending p1 q1 q2 q3 hp1 hq1 hq2 hq3 hslide hlen
    subst hp1; subst hq1; subst hq2; subst hq3
    have hand : handleGenerate now p 3 true
        [StreamEvent.result r1, StreamEvent.result r2, StreamEvent.result r3,
          StreamEvent.doneEv] ending
        = ⟨setPendingSlots
            (setGenerationState now
              (appendGenerationResults now
                (appendGenerationResults now
                  (appendGenerationResults now
                    (setPendingSlots (setGenerationState now p GenStatus.generating none) 3)
                    [r1]) [r2]) [r3])
              GenStatus.idle none) 0, none, true⟩ := by
      unfold handleGenerate
      rw [if_neg hslide]
      rfl
    have h1 : (appendGenerationResults now
        (setPendingSlots (setGenerationState now p GenStatus.generating none) 3)
        [r1]).results = p.results ++ [r1] := by
      show lastN 12 (p.results ++ [r1]) = p.results ++ [r1]
      apply lastN_of_le
      rw [List.length_append]
      simp only [List.length_cons, List.length_nil]
      omega
    have h2 : (appendGenerationResults now
        (appendGenerationResults now
          (setPendingSlots (setGenerationState now p GenStatus.generating none) 3)
          [r1]) [r2]).results = (p.results ++ [r1]) ++ [r2] := by
      show lastN 12 _ = _
      rw [h1]
      apply lastN_of_le
      rw [List.length_append, List.length_append]
      simp only [List.length_cons, List.length_nil]
      omega
    have h3 : (appendGenerationResults now
        (appendGenerationResults now
          (appendGenerationResults now
            (setPendingSlots (setGenerationState now p GenStatus.generating none) 3)
            [r1]) [r2]) [r3]).results = ((p.results ++ [r1]) ++ [r2]) ++ [r3] := by
      show lastN 12 _ = _
      rw [h2]
      apply lastN_of_le
      rw [List.length_append, List.length_append, List.length_append]
      simp only [List.length_cons, List.length_nil]
      omega
    have hps1 : max ((3 : Int) - 1) 0 = 2 := by decide
    have hps2 : max ((2 : Int) - 1) 0 = 1 := by decide
    have hps3 : max ((1 : Int) - 1) 0 = 0 := by decide
    refine ⟨rfl, hps1, hps2, hps3, rfl, rfl, rfl, rfl, hand, ?_, ?_, ?_⟩
    · rw [hand]
      rfl
    · rw [hand]
      rfl
    · rw [hand]
      show (appendGenerationResults now
        (appendGenerationResults now
          (appendGenerationResults now
            (setPendingSlots (setGenerationState now p GenStatus.generating none) 3)
            [r1]) [r2]) [r3]).results.length = p.results.length + 3
      rw [h3]
      rw [List.length_append, List.length_append, List.length_append]
      simp only [List.length_cons, List.length_nil]

/-- Witness for `result_frames_then_done` at a concrete session. -/
theorem result_frames_then_done_witness :
    (handleGenerate 0 sampleProject 3 true
        [StreamEvent.result sampleResult, StreamEvent.result sampleResult,
          StreamEvent.result sampleResult, StreamEvent.doneEv]
        TransportEnd.closed).project.results.length
      = sampleProject.results.length + 3 :=
  (result_frames_then_done.2 0 sampleProject sampleResult sampleResult sampleResult
    TransportEnd.closed _ _ _ _ rfl rfl rfl rfl (by decide)
    (by decide)).2.2.2.2.2.2.2.2.2.2.2

/-- C6: starting from any project whose results list respects the 12-item
cap, appending results one at a time always leaves exactly the most recent
results (the concatenation's last-12 suffix, preserving arrival order), so
the list never exceeds 12 entries, and reaches exactly 12 once 12 or more
results have arrived in total. -/
theorem results_never_exceed_twelve :
    ∀ (now : Nat) (p : WorkspaceProject) (rs : List WorkspaceGenerationResult),
      p.results.length ≤ 12 →
      ((rs.foldl (fun q r => appendGenerationResults now q [r]) p).results
          = lastN 12 (p.results ++ rs)
        ∧ (rs.foldl (fun q r => appendGenerationResults now q [r]) p).results.length ≤ 12
        ∧ (12 ≤ p.results.length + rs.length →
            (rs.foldl (fun q r => appendGenerationResults now q [r]) p).results.length
              = 12)) := by
  intro now p rs hp
  have h := appendOne_results_foldl now rs p hp
  refine ⟨h, ?_, ?_⟩
  · rw [h]
    exact lastN_length_le 12 _
  · intro hge
    rw [h]
    unfold lastN
    rw [List.length_drop, List.length_append]
    omega

/-- Witness for `results_never_exceed_twelve`: thirteen one-by-one appends
leave exactly 12 results. -/
theorem results_never_exceed_twelve_witness :
    ((List.replicate 13 sampleResult).foldl
        (fun q r => appendGenerationResults 0 q [r]) sampleProject).results.length
      = 12 :=
  (results_never_exceed_twelve 0 sampleProject (List.replicate 13 sampleResult)
    (by decide)).2.2 (by decide)

/-!
Project Synchronizer: the `hydrate` routine in the workspace provider
(`part_017`, lines 188-342).  The remote store's behaviour is modelled by a
`RemoteHydration` outcome: the fully fetched record on success, an empty
project list, or any failed remote call (everything reaching the `catch`
block).  The local cache fallback is `loadWorkspaceProject`'s result, passed
in as `fallback`.
-/

/-- The data assembled from the remote store on the success path of
`hydrate`: project detail, prompt, optional slide image, and the fetched
generation results. -/
structure RemoteProjectData where
  id : List Char
  name : List Char
  createdAt : Nat
  updatedAt : Nat
  lastPrompt : Option (List Char)
  slideImage : Option (List Char)
  results : List WorkspaceGenerationResult
deriving DecidableEq

/-- How the remote calls of one `hydrate` run turn out. -/
inductive RemoteHydration
  | success (remote : RemoteProjectData)
  | noProjects
  | failure
deriving DecidableEq

/-- `hydrate` from the workspace provider (`part_017`, lines 193-339).
Without a credential, with an empty remote project list, or when any remote
call fails, the cached fallback is installed with `generationStatus := idle`
and `generationError := none` (its other fields, `pendingSlots` included,
spread unchanged).  On success a fresh project is built from the remote data
with `generationStatus := idle`, `generationError := none`,
`pendingSlots := 0`. -/
def hydrate (hasToken : Bool) (fallback : WorkspaceProject)
    (outcome : RemoteHydration) : WorkspaceProject :=
  if hasToken = false then
    { fallback with generationStatus := GenStatus.idle, generationError := none }
  else
    match outcome with
    | RemoteHydration.noProjects =>
      { fallback with generationStatus := GenStatus.idle, generationError := none }
    | RemoteHydration.failure =>
      { fallback with generationStatus := GenStatus.idle, generationError := none }
    | RemoteHydration.success remote =>
      { id := remote.id
        name := remote.name
        createdAt := remote.createdAt
        updatedAt := remote.updatedAt
        autosaveStatus := AutosaveStatus.ready
        slideImage := remote.slideImage
        prompt := some (remote.lastPrompt.getD [])
        results := remote.results
        generationStatus := GenStatus.idle
        generationError := none
        pendingSlots := 0 }

/-- C7 (amended): every `hydrate` activation installs a project with
`generationStatus = idle` and `generationError = null`; `pendingSlots` is
forced to 0 only on the remote-success path — with no credential, with an
empty remote project list, or when any remote call fails, the cached project
is installed unchanged apart from the status/error reset, keeping its cached
`pendingSlots`. -/
theorem hydrate_forces_idle :
    ∀ (hasToken : Bool) (fallback : WorkspaceProject) (outcome : RemoteHydration),
      (hydrate hasToken fallback outcome).generationStatus = GenStatus.idle
      ∧ (hydrate hasToken fallback outcome).generationError = none
      ∧ (∀ remote, outcome = RemoteHydration.success remote → hasToken = true →
          (hydrate hasToken fallback outcome).pendingSlots = 0)
      ∧ (hasToken = false →
          hydrate hasToken fallback outcome
            = { fallback with
                generationStatus := GenStatus.idle, generationError := none })
      ∧ (outcome = RemoteHydration.noProjects →
          hydrate hasToken fallback outcome
            = { fallback with
                generationStatus := GenStatus.idle, generationError := none })
      ∧ (outcome = RemoteHydration.failure →
          hydrate hasToken fallback outcome
            = { fallback with
                generationStatus := GenStatus.idle, generationError := none })
      ∧ ((hasToken = false ∨ outcome = RemoteHydration.noProjects
            ∨ outcome = RemoteHydration.failure) →
          (hydrate hasToken fallback outcome).pendingSlots
            = fallback.pendingSlots) := by
  intro hasToken fallback outcome
  cases hasToken with
  | false =>
    refine ⟨rfl, rfl, ?_, fun _ => rfl, ?_, ?_, fun _ => rfl⟩
    · intro remote _ htrue
      cases htrue
    · intro heq
      cases heq
      rfl
    · intro heq
      cases heq
      rfl
  | true =>
    cases outcome with
    | success remote =>
      refine ⟨rfl, rfl, fun _ _ _ => rfl, ?_, ?_, ?_, ?_⟩
      · intro hfalse; cases hfalse
      · intro heq; cases heq
      · intro heq; cases heq
      · intro hor
        rcases hor with h | h | h
        · cases h
        · cases h
        · cases h
    | noProjects =>
      refine ⟨rfl, rfl, ?_, ?_, fun _ => rfl, ?_, fun _ => rfl⟩
      · intro remote heq; cases heq
      · intro hfalse; cases hfalse
      · intro heq; cases heq
    | failure =>
      refine ⟨rfl, rfl, ?_, ?_, ?_, fun _ => rfl, fun _ => rfl⟩
      · intro remote heq; cases heq
      · intro hfalse; cases hfalse
      · intro heq; cases heq

/-- A cached project as it can be persisted mid-session: status `generating`
with three pending slots. -/
def cachedGeneratingProject : WorkspaceProject :=
  { sampleProject with generationStatus := GenStatus.generating, pendingSlots := 3 }

/-- Witness for `hydrate_forces_idle` on the remote-success path (slots
forced to 0) and on the with-credential failed-remote path (cached slots
kept). -/
theorem hydrate_forces_idle_witness :
    (hydrate true cachedGeneratingProject
        (RemoteHydration.success
          { id := "p1".toList
            name := "Remote".toList
            createdAt := 0
            updatedAt := 0
            lastPrompt := none
            slideImage := none
            results := [] })).pendingSlots = 0
    ∧ (hydrate true cachedGeneratingProject RemoteHydration.failure).pendingSlots
      = cachedGeneratingProject.pendingSlots :=
  ⟨(hydrate_forces_idle true cachedGeneratingProject
      (RemoteHydration.success
        { id := "p1".toList
          name := "Remote".toList
          createdAt := 0
          updatedAt := 0
          lastPrompt := none
          slideImage := none
          results := [] })).2.2.1 _ rfl rfl,
    (hydrate_forces_idle true cachedGeneratingProject
      RemoteHydration.failure).2.2.2.2.2.2 (Or.inr (Or.inr rfl))⟩

/-- Counterexample to C7 as stated: a cached project persisted mid-session
(`generating`, `pendingSlots = 3`, loaded through `loadWorkspaceProject`) is
installed with status forced to `idle` but with `pendingSlots` still 3 — not
forced to 0 — on the no-credential path, on the with-credential failed-remote
path, and on the with-credential empty-project-list path alike. -/
theorem hydrate_no_token_keeps_pendingSlots :
    ((hydrate false (loadWorkspaceProject 0 (some cachedGeneratingProject))
          RemoteHydration.failure).generationStatus = GenStatus.idle
      ∧ ¬ (hydrate false (loadWorkspaceProject 0 (some cachedGeneratingProject))
          RemoteHydration.failure).pendingSlots = 0)
    ∧ ((hydrate true (loadWorkspaceProject 0 (some cachedGeneratingProject))
          RemoteHydration.failure).generationStatus = GenStatus.idle
      ∧ ¬ (hydrate true (loadWorkspaceProject 0 (some cachedGeneratingProject))
          RemoteHydration.failure).pendingSlots = 0)
    ∧ ((hydrate true (loadWorkspaceProject 0 (some cachedGeneratingProject))
          RemoteHydration.noProjects).generationStatus = GenStatus.idle
      ∧ ¬ (hydrate true (loadWorkspaceProject 0 (some cachedGeneratingProject))
          RemoteHydration.noProjects).pendingSlots = 0) := by decide

/-!
Rename: `renameProject` from the workspace provider (`part_017`, lines
420-444).  The remote `PATCH` call's outcome is the `remoteOk` argument;
a thrown error is modelled as `some message` in the second component, with
the first component carrying the resulting local project state (unchanged
when the function throws, since `updateProject` is only reached after a
successful response). -/
def renameProject (now : Nat) (hasToken : Bool) (remoteOk : Bool)
    (p : WorkspaceProject) (name : List Char) :
    WorkspaceProject × Option (List Char) :=
  if hasToken = false then
    (p, some "Authentication required.".toList)
  else if remoteOk = false then
    (p, some "Unable to rename project.".toList)
  else
    (updateProject now p ⟨some name, none, none⟩, none)

/-- C10 (amended): a rename is forwarded to the remote store first; only when
the remote call succeeds is the new name applied to local state (and
persisted).  A failed remote rename surfaces an error to the caller and
leaves the local name unchanged — the new name is never applied locally on
failure, and a missing credential likewise surfaces an error with no local
change. -/
theorem rename_applies_only_after_remote_success :
    ∀ (now : Nat) (hasToken remoteOk : Bool) (p : WorkspaceProject)
      (name : List Char),
      (hasToken = true → remoteOk = true →
        renameProject now hasToken remoteOk p name
          = (updateProject now p ⟨some name, none, none⟩, none)
        ∧ (renameProject now hasToken remoteOk p name).1.name = name)
      ∧ (hasToken = true → remoteOk = false →
          (renameProject now hasToken remoteOk p name).1 = p
          ∧ (renameProject now hasToken remoteOk p name).2
            = some "Unable to rename project.".toList)
      ∧ (hasToken = false →
          (renameProject now hasToken remoteOk p name).1 = p
          ∧ (renameProject now hasToken remoteOk p name).2
            = some "Authentication required.".toList) := by
  intro now hasToken remoteOk p name
  cases hasToken with
  | false =>
    refine ⟨?_, ?_, ?_⟩
    · intro h; cases h
    · intro h; cases h
    · intro _; exact ⟨rfl, rfl⟩
  | true =>
    cases remoteOk with
    | false =>
      refine ⟨?_, ?_, ?_⟩
      · intro _ h; cases h
      · intro _ _; exact ⟨rfl, rfl⟩
      · intro h; cases h
    | true =>
      refine ⟨?_, ?_, ?_⟩
      · intro _ _; exact ⟨rfl, rfl⟩
      · intro _ h; cases h
      · intro h; cases h

/-- Witness for `rename_applies_only_after_remote_success` on the failure
path. -/
theorem rename_applies_only_after_remote_success_witness :
    (renameProject 0 true false sampleProject "New deck".toList).1 = sampleProject :=
  ((rename_applies_only_after_remote_success 0 true false sampleProject
    "New deck".toList).2.1 rfl rfl).1

/-- Counterexample to C10 as stated: when the remote rename fails, the new
name has not been applied to local state — the project keeps its old name
(and an error is surfaced), so there is no "local value retained" new name. -/
theorem rename_failure_keeps_old_name :
    (renameProject 0 true false sampleProject "New deck".toList).1.name
      = sampleProject.name
    ∧ ¬ (renameProject 0 true false sampleProject "New deck".toList).1.name
      = "New deck".toList
    ∧ (renameProject 0 true false sampleProject "New deck".toList).2
      = some "Unable to rename project.".toList := by decide

/-!
Selection Editor: `WorkspaceSelectionOverlay` from `src/unnamed/part_015`.
Pointer coordinates are modelled as integers (the handlers use only
min/max/abs, addition and subtraction, so nothing depends on fractional
coordinates).  The overlay's
`project.selection` is the `selection` component of `EditorState`; the
`dragState` React state is the `drag` component.  `onPointerLeave` is wired
to the same `handlePointerUp` handler, so one function models both.
-/

/-- `MIN_SIZE` from `part_015`. -/
def MIN_SIZE : Int := 20

/-- The eight resize handles of `part_015`. -/
inductive ResizeHandle
  | topLeft
  | topRight
  | bottomLeft
  | bottomRight
  | top
  | bottom
  | left
  | right
deriving DecidableEq

/-- `handle.includes('left')` on the literal handle strings. -/
def handleHasLeft : ResizeHandle → Bool
  | ResizeHandle.topLeft => true
  | ResizeHandle.bottomLeft => true
  | ResizeHandle.left => true
  | _ => false

/-- `handle.includes('right')` on the literal handle strings. -/
def handleHasRight : ResizeHandle → Bool
  | ResizeHandle.topRight => true
  | ResizeHandle.bottomRight => true
  | ResizeHandle.right => true
  | _ => false

/-- `handle.includes('top')` on the literal handle strings (note that
`"bottom"` does not contain `"top"`). -/
def handleHasTop : ResizeHandle → Bool
  | ResizeHandle.topLeft => true
  | ResizeHandle.topRight => true
  | ResizeHandle.top => true
  | _ => false

/-- `handle.includes('bottom')` on the literal handle strings. -/
def handleHasBottom : ResizeHandle → Bool
  | ResizeHandle.bottomLeft => true
  | ResizeHandle.bottomRight => true
  | ResizeHandle.bottom => true
  | _ => false

/-- `WorkspaceSelection` as used by `part_015` (rectangle plus ratio tag). -/
structure WorkspaceSelection where
  x : Int
  y : Int
  width : Int
  height : Int
  ratio : List Char
deriving DecidableEq

/-- `DragMode` from `part_015`. -/
inductive DragMode
  | none
  | drawing (originX originY : Int)
  | move (startX startY : Int) (initial : WorkspaceSelection)
  | resize (handle : ResizeHandle) (initial : WorkspaceSelection)
deriving DecidableEq

/-- The overlay's state: the `dragState` React state together with the
`project.selection` it edits through `updateSelection`. -/
structure EditorState where
  drag : DragMode
  selection : Option WorkspaceSelection
deriving DecidableEq

/-- `getRelativePoint`: clamp the pointer into the surface rectangle. -/
def clampPoint (surfW surfH px py : Int) : Int × Int :=
  (min (max 0 px) surfW, min (max 0 py) surfH)

/-- `normalizeSelection` from `part_015`. -/
def normalizeSelection (startX startY x y : Int) : WorkspaceSelection :=
  { x := min startX x
    y := min startY y
    width := |x - startX|
    height := |y - startY|
    ratio := "custom".toList }

/-- `handlePointerDown` from `part_015` (primary button): enter `drawing`
at the clamped press point and emit a degenerate zero-size selection there. -/
def handlePointerDown (surfW surfH : Int) (s : EditorState) (px py : Int) :
    EditorState :=
  let c := clampPoint surfW surfH px py
  { drag := DragMode.drawing c.1 c.2
    selection := some
      { x := c.1, y := c.2, width := 0, height := 0, ratio := "custom".toList } }

/-- The resize computation of `handlePointerMove` (`part_015`, lines 76-113):
each active edge is adjusted against the opposite-anchored minimum, the
`right`/`bottom` growth is capped by the surface, and the final width and
height are floored at `MIN_SIZE`. -/
def resizeSelection (surfW surfH : Int) (handle : ResizeHandle)
    (initial : WorkspaceSelection) (relX relY : Int) : WorkspaceSelection :=
  let pairX :=
    if handleHasLeft handle then
      let newLeft := min relX (initial.x + initial.width - MIN_SIZE)
      (newLeft, initial.x + initial.width - newLeft)
    else (initial.x, initial.width)
  let pairX :=
    if handleHasRight handle then
      let newRight := max relX (initial.x + MIN_SIZE)
      (pairX.1, min (newRight - initial.x) (surfW - initial.x))
    else pairX
  let pairY :=
    if handleHasTop handle then
      let newTop := min relY (initial.y + initial.height - MIN_SIZE)
      (newTop, initial.y + initial.height - newTop)
    else (initial.y, initial.height)
  let pairY :=
    if handleHasBottom handle then
      let newBottom := max relY (initial.y + MIN_SIZE)
      (pairY.1, min (newBottom - initial.y) (surfH - initial.y))
    else pairY
  { x := pairX.1
    y := pairY.1
    width := max MIN_SIZE pairX.2
    height := max MIN_SIZE pairY.2
    ratio := "custom".toList }

/-- `handlePointerMove` from `part_015`: update the emitted selection
according to the drag mode (`drawing` normalizes against the origin, `move`
translates clamped into the surface, `resize` delegates to
`resizeSelection`); the `move`/`resize` branches are guarded on an existing
selection as in the code. -/
def handlePointerMove (surfW surfH : Int) (s : EditorState) (px py : Int) :
    EditorState :=
  match s.drag with
  | DragMode.none => s
  | DragMode.drawing ox oy =>
    let c := clampPoint surfW surfH px py
    { s with selection := some (normalizeSelection ox oy c.1 c.2) }
  | DragMode.move sx sy initial =>
    match s.selection with
    | Option.none => s
    | Option.some _ =>
      let c := clampPoint surfW surfH px py
      let moved : WorkspaceSelection :=
        { initial with
          x := min (max 0 (initial.x + (c.1 - sx))) (surfW - initial.width)
          y := min (max 0 (initial.y + (c.2 - sy))) (surfH - initial.height) }
      { s with selection := some moved }
  | DragMode.resize handle initial =>
    match s.selection with
    | Option.none => s
    | Option.some _ =>
      let c := clampPoint surfW surfH px py
      { s with selection := some (resizeSelection surfW surfH handle initial c.1 c.2) }

/-- `handlePointerUp` from `part_015` (also wired to `onPointerLeave`): a
`drawing` gesture whose final rectangle is below `MIN_SIZE` in either axis
discards the selection entirely; every path returns the drag mode to
`none`. -/
def handlePointerUp (s : EditorState) : EditorState :=
  match s.drag, s.selection with
  | DragMode.drawing _ _, Option.some sel =>
    if sel.width < MIN_SIZE ∨ sel.height < MIN_SIZE then
      { drag := DragMode.none, selection := none }
    else { s with drag := DragMode.none }
  | _, _ => { s with drag := DragMode.none }

/-- `startMove` from `part_015`. -/
def startMove (surfW surfH : Int) (s : EditorState) (px py : Int) : EditorState :=
  match s.selection with
  | Option.none => s
  | Option.some sel =>
    let c := clampPoint surfW surfH px py
    { s with drag := DragMode.move c.1 c.2 sel }

/-- `startResize` from `part_015`. -/
def startResize (s : EditorState) (handle : ResizeHandle) : EditorState :=
  match s.selection with
  | Option.none => s
  | Option.some sel => { s with drag := DragMode.resize handle sel }

/-- One pointer-move step over a pair of coordinates, for folding a whole
drag over a list of pointer positions. -/
def pointerMoveStep (surfW surfH : Int) (s : EditorState) (m : Int × Int) :
    EditorState :=
  handlePointerMove surfW surfH s m.1 m.2

theorem drawing_moves_invariant (surfW surfH : Int) :
    ∀ (moves : List (Int × Int)) (ox oy : Int) (sel : WorkspaceSelection),
      ∃ sel2, moves.foldl (pointerMoveStep surfW surfH)
          ⟨DragMode.drawing ox oy, some sel⟩
        = ⟨DragMode.drawing ox oy, some sel2⟩ := by
  intro moves
  induction moves with
  | nil => intro ox oy sel; exact ⟨sel, rfl⟩
  | cons m ms ih =>
    intro ox oy sel
    rw [List.foldl_cons]
    exact ih ox oy
      (normalizeSelection ox oy (clampPoint surfW surfH m.1 m.2).1
        (clampPoint surfW surfH m.1 m.2).2)

/-- C8: a drawing gesture (pointer down, any sequence of moves, then pointer
up — pointer leave being wired to the same handler) whose final rectangle is
below 20 units in either axis retains no selection: the machine returns to
the no-drag, no-selection state it started a fresh gesture from.  In
particular drawing from (10,10) to (15,12) and releasing retains no
selection. -/
theorem drawing_below_minimum_discarded :
    (∀ (surfW surfH px py : Int) (moves : List (Int × Int)) (sel : WorkspaceSelection),
        (moves.foldl (pointerMoveStep surfW surfH)
            (handlePointerDown surfW surfH ⟨DragMode.none, none⟩ px py)).selection
          = some sel →
        sel.width < MIN_SIZE ∨ sel.height < MIN_SIZE →
        handlePointerUp
            (moves.foldl (pointerMoveStep surfW surfH)
              (handlePointerDown surfW surfH ⟨DragMode.none, none⟩ px py))
          = ⟨DragMode.none, none⟩)
    ∧ handlePointerUp
        (handlePointerMove 100 100
          (handlePointerDown 100 100 ⟨DragMode.none, none⟩ 10 10) 15 12)
      = ⟨DragMode.none, none⟩ := by
  constructor
  · intro surfW surfH px py moves sel hsel hsmall
    have hdown : handlePointerDown surfW surfH ⟨DragMode.none, none⟩ px py
        = ⟨DragMode.drawing (clampPoint surfW surfH px py).1
              (clampPoint surfW surfH px py).2,
            some { x := (clampPoint surfW surfH px py).1
                   y := (clampPoint surfW surfH px py).2
                   width := 0, height := 0, ratio := "custom".toList }⟩ := rfl
    obtain ⟨sel2, h2⟩ := drawing_moves_invariant surfW surfH moves
      (clampPoint surfW surfH px py).1 (clampPoint surfW surfH px py).2
      { x := (clampPoint surfW surfH px py).1
        y := (clampPoint surfW surfH px py).2
        width := 0, height := 0, ratio := "custom".toList }
    rw [hdown, h2] at hsel ⊢
    have hsel2 : sel2 = sel := Option.some.inj hsel
    subst hsel2
    show (if sel2.width < MIN_SIZE ∨ sel2.height < MIN_SIZE then
        (⟨DragMode.none, none⟩ : EditorState)
      else ⟨DragMode.none, some sel2⟩) = ⟨DragMode.none, none⟩
    rw [if_pos hsmall]
  · decide

/-- Witness for `drawing_below_minimum_discarded`: the concrete gesture
(10,10) → (15,12) is discarded. -/
theorem drawing_below_minimum_discarded_witness :
    handlePointerUp
        ([((15 : Int), (12 : Int))].foldl (pointerMoveStep 100 100)
          (handlePointerDown 100 100 ⟨DragMode.none, none⟩ 10 10))
      = ⟨DragMode.none, none⟩ :=
  drawing_below_minimum_discarded.1 100 100 10 10 [((15 : Int), (12 : Int))]
    ⟨10, 10, 5, 2, "custom".toList⟩ (by decide) (by decide)

/-- C9: every rectangle emitted by a resize gesture has width and height at
least 20 (the rectangle never inverts), and dragging a corner handle past the
opposite edge leaves the shrinking axes at exactly the 20-unit floor (for the
`right`/`bottom` edges provided the anchored edge leaves at least 20 units of
surface, as the code caps growth at the surface bound). -/
theorem resize_never_inverts :
    (∀ (surfW surfH : Int) (handle : ResizeHandle) (initial sel : WorkspaceSelection)
        (px py : Int) (out : WorkspaceSelection),
        (handlePointerMove surfW surfH ⟨DragMode.resize handle initial, some sel⟩
            px py).selection = some out →
        MIN_SIZE ≤ out.width ∧ MIN_SIZE ≤ out.height)
    ∧ (∀ (surfW surfH : Int) (initial : WorkspaceSelection) (relX relY : Int),
        initial.x + initial.width ≤ relX →
        initial.y + initial.height ≤ relY →
        (resizeSelection surfW surfH ResizeHandle.topLeft initial relX relY).width
            = MIN_SIZE
          ∧ (resizeSelection surfW surfH ResizeHandle.topLeft initial relX relY).height
            = MIN_SIZE)
    ∧ (∀ (surfW surfH : Int) (initial : WorkspaceSelection) (relX relY : Int),
        relX ≤ initial.x →
        initial.y + initial.height ≤ relY →
        initial.x + MIN_SIZE ≤ surfW →
        (resizeSelection surfW surfH ResizeHandle.topRight initial relX relY).width
            = MIN_SIZE
          ∧ (resizeSelection surfW surfH ResizeHandle.topRight initial relX relY).height
            = MIN_SIZE)
    ∧ (∀ (surfW surfH : Int) (initial : WorkspaceSelection) (relX relY : Int),
        initial.x + initial.width ≤ relX →
        relY ≤ initial.y →
        initial.y + MIN_SIZE ≤ surfH →
        (resizeSelection surfW surfH ResizeHandle.bottomLeft initial relX relY).width
            = MIN_SIZE
          ∧ (resizeSelection surfW surfH ResizeHandle.bottomLeft initial relX relY).height
            = MIN_SIZE)
    ∧ (∀ (surfW surfH : Int) (initial : WorkspaceSelection) (relX relY : Int),
        relX ≤ initial.x →
        relY ≤ initial.y →
        initial.x + MIN_SIZE ≤ surfW →
        initial.y + MIN_SIZE ≤ surfH →
        (resizeSelection surfW surfH ResizeHandle.bottomRight initial relX relY).width
            = MIN_SIZE
          ∧ (resizeSelection surfW surfH ResizeHandle.bottomRight initial relX relY).height
            = MIN_SIZE) := by
  have hm0 : (0 : Int) ≤ MIN_SIZE := by norm_num [MIN_SIZE]
  have hshrinkL : ∀ (a w relX : Int), a + w ≤ relX →
      max MIN_SIZE (a + w - min relX (a + w - MIN_SIZE)) = MIN_SIZE := by
    intro a w relX h
    rw [min_eq_right (show a + w - MIN_SIZE ≤ relX by linarith)]
    have hx : a + w - (a + w - MIN_SIZE) = MIN_SIZE := by ring
    rw [hx, max_self]
  have hshrinkR : ∀ (a surf relX : Int), relX ≤ a → a + MIN_SIZE ≤ surf →
      max MIN_SIZE (min (max relX (a + MIN_SIZE) - a) (surf - a)) = MIN_SIZE := by
    intro a surf relX h hs
    rw [max_eq_right (show relX ≤ a + MIN_SIZE by linarith)]
    have hx : a + MIN_SIZE - a = MIN_SIZE := by ring
    rw [hx, min_eq_left (show MIN_SIZE ≤ surf - a by linarith), max_self]
  refine ⟨?_, ?_, ?_, ?_, ?_⟩
  · intro surfW surfH handle initial sel px py out h
    have hout : some (resizeSelection surfW surfH handle initial
        (clampPoint surfW surfH px py).1 (clampPoint surfW surfH px py).2) = some out := h
    have hout2 := (Option.some.inj hout).symm
    subst hout2
    exact ⟨le_max_left _ _, le_max_left _ _⟩
  · intro surfW surfH initial relX relY h1 h2
    exact ⟨hshrinkL initial.x initial.width relX h1,
      hshrinkL initial.y initial.height relY h2⟩
  · intro surfW surfH initial relX relY h1 h2 h3
    exact ⟨hshrinkR initial.x surfW relX h1 h3,
      hshrinkL initial.y initial.height relY h2⟩
  · intro surfW surfH initial relX relY h1 h2 h3
    exact ⟨hshrinkL initial.x initial.width relX h1,
      hshrinkR initial.y surfH relY h2 h3⟩
  · intro surfW surfH initial relX relY h1 h2 h3 h4
    exact ⟨hshrinkR initial.x surfW relX h1 h3,
      hshrinkR initial.y surfH relY h2 h4⟩

/-- Witness for `resize_never_inverts`: dragging the bottom-right handle of
the square (30,30)-(70,70) on a 100×100 surface to the far top-left corner
yields exactly the 20×20 floor. -/
theorem resize_never_inverts_witness :
    MIN_SIZE ≤ ((⟨30, 30, 20, 20, "custom".toList⟩ : WorkspaceSelection)).width
    ∧ (resizeSelection 100 100 ResizeHandle.bottomRight
        ⟨30, 30, 40, 40, "custom".toList⟩ 0 0).width = MIN_SIZE
    ∧ (resizeSelection 100 100 ResizeHandle.bottomRight
        ⟨30, 30, 40, 40, "custom".toList⟩ 0 0).height = MIN_SIZE :=
  ⟨(resize_never_inverts.1 100 100 ResizeHandle.bottomRight
      ⟨30, 30, 40, 40, "custom".toList⟩ ⟨30, 30, 40, 40, "custom".toList⟩ 0 0
      ⟨30, 30, 20, 20, "custom".toList⟩ (by decide)).1,
    (resize_never_inverts.2.2.2.2 100 100 ⟨30, 30, 40, 40, "custom".toList⟩ 0 0
      (by decide) (by decide) (by decide) (by decide)).1,
    (resize_never_inverts.2.2.2.2 100 100 ⟨30, 30, 40, 40, "custom".toList⟩ 0 0
      (by decide) (by decide) (by decide) (by decide)).2⟩

end Odin
